import Mathlib

/-!
Shallow embedding of `src/dateUtils.ts` (a small date-utility module built on
the date-fns library and the JavaScript `Date` built-in), together with proofs
about its documented behaviour.

Modelling conventions:
* A JavaScript `Date` holds a time value: a number of milliseconds since the
  epoch, restricted to `|t| ≤ 8.64e15`, or NaN (an "Invalid Date").  We model
  it as `JSDate`, wrapping `Option Int` (`none` is the NaN time value).
  The model uses a fixed local time zone with zero offset, so local midnight
  of day `z` (in days since the epoch) is `z * msPerDay`.
* A JavaScript `number` argument is modelled by `JSNumber`: NaN, the two
  infinities, or a finite rational.
* Calendar computations (`getFullYear`, `new Date(y, m, d)`, month
  arithmetic) are modelled with the proleptic Gregorian calendar via the
  standard civil-from-days / days-from-civil conversions, which compute the
  same calendar mapping the ECMAScript specification defines.
* Throwing functions return `Except String` with the thrown message.
-/

namespace DateUtils

/-- milliseconds in one day -/
def msPerDay : Int := 86400000

/-- milliseconds in one hour -/
def msPerHour : Int := 3600000

/-- ECMAScript maximal absolute time value (8.64e15 ms, ±100,000,000 days). -/
def timeMax : Int := 8640000000000000

/-- ECMAScript TimeClip: a time value outside the representable range becomes
NaN (here `none`). -/
def timeClip (t : Int) : Option Int :=
  if t ≤ timeMax ∧ -timeMax ≤ t then some t else none

/-- A JavaScript number argument: NaN, an infinity, or a finite rational. -/
inductive JSNumber where
  | nan
  | posInf
  | negInf
  | finite (v : ℚ)
deriving DecidableEq, Repr

/-- Test for NaN, as JavaScript's global `isNaN` on a number. -/
def JSNumber.isNaN : JSNumber → Bool
  | .nan => true
  | _ => false

/-- Test for a finite number, as JavaScript's `Number.isFinite`. -/
def JSNumber.isFinite : JSNumber → Bool
  | .finite _ => true
  | _ => false

/-- Negation of a JavaScript number. -/
def JSNumber.neg : JSNumber → JSNumber
  | .nan => .nan
  | .posInf => .negInf
  | .negInf => .posInf
  | .finite v => .finite (-v)

/-- ECMAScript ToInteger on a finite number: truncation toward zero
(`Math.ceil` for negative values, `Math.floor` otherwise).  On a rational in
lowest terms this is the truncating division of numerator by denominator. -/
def jsToInt (q : ℚ) : Int := Int.tdiv q.num q.den

/-- A JavaScript `Date` value: its time value in milliseconds since the epoch,
or `none` for an Invalid Date (NaN time value). -/
structure JSDate where
  time : Option Int
deriving DecidableEq, Repr

/-- A date is valid when its time value is not NaN. -/
def JSDate.isValid (d : JSDate) : Bool := d.time.isSome

/-- Proleptic Gregorian leap-year test (as JavaScript's calendar). -/
def isLeapYear (y : Int) : Bool := (y % 4 == 0 && y % 100 != 0) || y % 400 == 0

/-- Number of days in month `m` (1–12) of year `y`. -/
def daysInMonth (y m : Int) : Int :=
  if m = 2 then (if isLeapYear y then 29 else 28)
  else if m = 4 ∨ m = 6 ∨ m = 9 ∨ m = 11 then 30
  else 31

/-- Day of the era (within a 400-year Gregorian cycle starting in a March)
on which the March-based year `x` starts: 365 days per year plus a leap day
after every year divisible by 4 but not by 100 (the year divisible by 400 is
the era's last and its leap day is the era's last day). -/
def yearStartOfEra (x : Int) : Int := 365 * x + x / 4 - x / 100

/-- Day of the March-based year on which March-based month `x` (0 = March …
11 = February) starts: the months March…January repeat the 153-day pattern
31,30,31,30,31. -/
def monthStartDoy (x : Int) : Int := (153 * x + 2) / 5

/-- Day number (days since 1970-01-01) of the civil date `y-m-d`, for
`1 ≤ m ≤ 12`.  Standard era/year-of-era decomposition of the proleptic
Gregorian calendar (the calendar ECMAScript prescribes), with years starting
in March so the leap day is the last day of the shifted year; `/` on `Int`
is Euclidean division, which is floor division for the positive divisors
used here. -/
def daysFromCivil (y m d : Int) : Int :=
  let y2 := if m ≤ 2 then y - 1 else y
  let era := y2 / 400
  let yoe := y2 - era * 400
  let doy := monthStartDoy (if 2 < m then m - 3 else m + 9) + d - 1
  let doe := yearStartOfEra yoe + doy
  era * 146097 + doe - 719468

/-- March-based year of era (0–399) containing day-of-era `doe`: guess
`doe / 365` and correct the guess downward by one where it overshoots (the
guess overshoots by at most one; the guess 400, reached only on the era's
final leap day, is also an overshoot). -/
def yoeOfDoe (doe : Int) : Int :=
  let yoe0 := doe / 365
  if doe < yearStartOfEra yoe0 ∨ 399 < yoe0 then yoe0 - 1 else yoe0

/-- March-based month (0–11) containing day-of-year `doy` (0–365): guess
`doy / 30` and correct the guess downward by one where it overshoots. -/
def mpOfDoy (doy : Int) : Int :=
  let mp0 := doy / 30
  if doy < monthStartDoy mp0 then mp0 - 1 else mp0

/-- Civil date `(y, m, d)` (with `1 ≤ m ≤ 12`) of a day number: the inverse
of `daysFromCivil`, by era/year-of-era/day-of-year decomposition. -/
def civilFromDays (z : Int) : Int × Int × Int :=
  let z2 := z + 719468
  let era := z2 / 146097
  let doe := z2 - era * 146097
  let yoe := yoeOfDoe doe
  let doy := doe - yearStartOfEra yoe
  let mp := mpOfDoy doy
  let d := doy - monthStartDoy mp + 1
  let m := if mp < 10 then mp + 3 else mp - 9
  (if m ≤ 2 then era * 400 + yoe + 1 else era * 400 + yoe, m, d)

/-- Day number (local day since the epoch) containing time value `t`. -/
def dayOfTime (t : Int) : Int := t / msPerDay

/-- Calendar year of time value `t`, as `Date.prototype.getFullYear`. -/
def yearOfTime (t : Int) : Int := (civilFromDays (dayOfTime t)).1

/-- The JavaScript constructor `new Date(year, monthIndex, day)` (local time,
midnight).  `monthIndex` is 0-based and may overflow into adjacent years
(ECMAScript MakeDay); a `year` between 0 and 99 is treated as `1900 + year`;
the result is subject to TimeClip. -/
def jsNewDate (year month day : Int) : JSDate :=
  let yr := if 0 ≤ year ∧ year ≤ 99 then 1900 + year else year
  let ym := yr + month / 12
  let mn := month % 12
  ⟨timeClip ((daysFromCivil ym (mn + 1) 1 + (day - 1)) * msPerDay)⟩

/-- Midnight (local) of the civil date `y-m-d`, used to state what calendar
date a result falls on.  Unlike `jsNewDate` it applies no 1900-offset to the
year and expects a 1-based month. -/
def civilMidnight (y m d : Int) : JSDate :=
  ⟨timeClip (daysFromCivil y m d * msPerDay)⟩

/-- date-fns `isAfter`: strict comparison of time values; any comparison with
a NaN time value is false. -/
def isAfter (a b : JSDate) : Bool :=
  match a.time, b.time with
  | some x, some y => decide (y < x)
  | _, _ => false

/-- date-fns `isBefore`: strict comparison of time values; any comparison with
a NaN time value is false. -/
def isBefore (a b : JSDate) : Bool :=
  match a.time, b.time with
  | some x, some y => decide (x < y)
  | _, _ => false

/-- date-fns `isSameDay`: the two local start-of-day time values coincide; an
Invalid Date is on nobody's day (NaN compares unequal to everything). -/
def isSameDayFn (a b : JSDate) : Bool :=
  match a.time, b.time with
  | some x, some y => decide (dayOfTime x = dayOfTime y)
  | _, _ => false

/-- date-fns `addDays`: shift the time value by whole days (the amount is
coerced with ToInteger); a NaN or infinite amount, an invalid input date, or
an out-of-range result yields an Invalid Date. -/
def addDays (d : JSDate) (amount : JSNumber) : JSDate :=
  match d.time, amount with
  | some t, .finite q => ⟨timeClip (t + jsToInt q * msPerDay)⟩
  | _, _ => ⟨none⟩

/-- date-fns `addWeeks`: `addDays` of seven times the amount. -/
def addWeeks (d : JSDate) (amount : JSNumber) : JSDate :=
  match d.time, amount with
  | some t, .finite q => ⟨timeClip (t + jsToInt (7 * q) * msPerDay)⟩
  | _, _ => ⟨none⟩

/-- Core of calendar-month addition on a time value: go to civil form, move
`k` months, clamp the day-of-month to the target month's length, keep the
time-of-day, come back.  This is the day-clamping semantics of date-fns
`addMonths`. -/
def addMonthsCore (t k : Int) : Option Int :=
  let z := dayOfTime t
  let tod := t % msPerDay
  let c := civilFromDays z
  let months := c.1 * 12 + (c.2.1 - 1) + k
  let y2 := months / 12
  let m2 := months % 12 + 1
  let d2 := min c.2.2 (daysInMonth y2 m2)
  timeClip (daysFromCivil y2 m2 d2 * msPerDay + tod)

/-- date-fns `addMonths` (amount coerced with ToInteger; NaN/infinite amounts
and invalid dates give an Invalid Date). -/
def addMonths (d : JSDate) (amount : JSNumber) : JSDate :=
  match d.time, amount with
  | some t, .finite q => ⟨addMonthsCore t (jsToInt q)⟩
  | _, _ => ⟨none⟩

/-- date-fns `addYears`: `addMonths` of twelve times the integerized amount. -/
def addYears (d : JSDate) (amount : JSNumber) : JSDate :=
  match d.time, amount with
  | some t, .finite q => ⟨addMonthsCore t (12 * jsToInt q)⟩
  | _, _ => ⟨none⟩

namespace DATE_UNIT_TYPES

/-- Modelled from the spec: `src/constants.ts` (which exports
`DATE_UNIT_TYPES`) is not under `src/`; the spec describes a Date Unit as "an
enumerated tag {DAYS, WEEKS, MONTHS, YEARS}", so the four tags are modelled
as four distinct string constants. -/
def DAYS : String := "days"

/-- Modelled from the spec: the WEEKS tag of the Date Unit enumeration. -/
def WEEKS : String := "weeks"

/-- Modelled from the spec: the MONTHS tag of the Date Unit enumeration. -/
def MONTHS : String := "months"

/-- Modelled from the spec: the YEARS tag of the Date Unit enumeration. -/
def YEARS : String := "years"

end DATE_UNIT_TYPES

/-- `add` from `src/dateUtils.ts`: validate the date (`!(date instanceof
Date) || isNaN(date.getTime())`) and the amount (`typeof amount !== "number"
|| isNaN(amount)`; in this typed model the amount is always a number, so only
the NaN check remains), then dispatch on the unit tag, defaulting to
day-granularity addition for an unrecognized tag. -/
def add (date : JSDate) (amount : JSNumber) (type : String) : Except String JSDate :=
  if date.isValid = false then .error "Invalid date provided"
  else if amount.isNaN then .error "Invalid amount provided"
  else if type = DATE_UNIT_TYPES.DAYS then .ok (addDays date amount)
  else if type = DATE_UNIT_TYPES.WEEKS then .ok (addWeeks date amount)
  else if type = DATE_UNIT_TYPES.MONTHS then .ok (addMonths date amount)
  else if type = DATE_UNIT_TYPES.YEARS then .ok (addYears date amount)
  else .ok (addDays date amount)

/-- `add` with the `type` parameter omitted: the TypeScript default parameter
value is `DATE_UNIT_TYPES.DAYS`. -/
def addDefaultUnit (date : JSDate) (amount : JSNumber) : Except String JSDate :=
  add date amount DATE_UNIT_TYPES.DAYS

/-- `isWithinRange` from `src/dateUtils.ts`. -/
def isWithinRange (date fromDate toDate : JSDate) : Except String Bool :=
  if isAfter fromDate toDate then .error "Invalid range: from date must be before to date"
  else .ok (isAfter date fromDate && isBefore date toDate)

/-- `isDateBefore` from `src/dateUtils.ts`. -/
def isDateBefore (date compareDate : JSDate) : Bool := isBefore date compareDate

/-- `isSameDay` from `src/dateUtils.ts`. -/
def isSameDay (date compareDate : JSDate) : Bool := isSameDayFn date compareDate

/-- `getHolidays` from `src/dateUtils.ts`: the resolved value of the promise
(the fixed 100 ms artificial delay is timing, not data, and is not part of
the value model). -/
def getHolidays (year : Int) : List JSDate :=
  [jsNewDate year 0 1, jsNewDate year 11 25, jsNewDate year 11 31]

/-- `isHoliday` from `src/dateUtils.ts`: `getHolidays(date.getFullYear())`
then `holidays.some(holiday => isSameDay(date, holiday))`.  For an Invalid
Date the year is NaN, every constructed holiday is an Invalid Date, and
`isSameDay` is false against each, so the result is false. -/
def isHoliday (date : JSDate) : Bool :=
  match date.time with
  | none => false
  | some t => (getHolidays (yearOfTime t)).any (fun holiday => isSameDay date holiday)

/-- Correctness of the year-of-era extraction: for a day of era in range, the
extracted March-based year is in 0–399, starts no later than the given day,
and the day's offset into it is bounded by the year's length (365 days plus
the leap increments of the following year boundary). -/
theorem yoeOfDoe_spec (doe : Int) (h0 : 0 ≤ doe) (h1 : doe ≤ 146096) :
    0 ≤ yoeOfDoe doe ∧ yoeOfDoe doe ≤ 399 ∧
    yearStartOfEra (yoeOfDoe doe) ≤ doe ∧
    doe - yearStartOfEra (yoeOfDoe doe) ≤ 364 +
      ((yoeOfDoe doe + 1) / 4 - (yoeOfDoe doe + 1) / 100 + (yoeOfDoe doe + 1) / 400) -
      (yoeOfDoe doe / 4 - yoeOfDoe doe / 100 + yoeOfDoe doe / 400) := by
  simp only [yoeOfDoe, yearStartOfEra]
  split_ifs <;> (try simp only [Int.sub_add_cancel]) <;> omega
theorem mpOfDoy_spec (doy : Int) (h0 : 0 ≤ doy) (h1 : doy ≤ 365) :
    0 ≤ mpOfDoy doy ∧ mpOfDoy doy ≤ 11 ∧
    monthStartDoy (mpOfDoy doy) ≤ doy ∧ doy < monthStartDoy (mpOfDoy doy + 1) := by
  simp only [mpOfDoy, monthStartDoy]
  split_ifs <;> (try simp only [Int.sub_add_cancel]) <;> omega

set_option maxHeartbeats 4000000 in
/-- Correctness of `civilFromDays` as the inverse of `daysFromCivil`, stated
over the unfolded components of `civilFromDays`. -/
theorem civil_aux_inv (z era doe yoe doy mp d m y : Int)
    (hera : era = (z + 719468) / 146097)
    (hdoe : doe = z + 719468 - era * 146097)
    (hyoe : yoe = yoeOfDoe doe)
    (hdoy : doy = doe - yearStartOfEra yoe)
    (hmp : mp = mpOfDoy doy)
    (hd : d = doy - monthStartDoy mp + 1)
    (hm : m = if mp < 10 then mp + 3 else mp - 9)
    (hy : y = if m ≤ 2 then era * 400 + yoe + 1 else era * 400 + yoe) :
    daysFromCivil y m d = z := by
  have ys := yoeOfDoe_spec doe (by omega) (by omega)
  rw [← hyoe] at ys
  have ms := mpOfDoy_spec doy (by omega) (by omega)
  rw [← hmp] at ms
  unfold yearStartOfEra at ys hdoy
  unfold monthStartDoy at ms hd
  by_cases hc : mp < 10
  · rw [if_pos hc] at hm
    have hm2 : ¬ m ≤ 2 := by omega
    rw [if_neg hm2] at hy
    simp only [daysFromCivil, yearStartOfEra, monthStartDoy]
    rw [if_neg hm2]
    rw [show y / 400 = era by omega]
    rw [show y - era * 400 = yoe by omega]
    rw [if_pos (show 2 < m by omega)]
    subst hm
    rw [show mp + 3 - 3 = mp by ring]
    omega
  · rw [if_neg hc] at hm
    have hm2 : m ≤ 2 := by omega
    rw [if_pos hm2] at hy
    simp only [daysFromCivil, yearStartOfEra, monthStartDoy]
    rw [if_pos hm2]
    rw [show y - 1 = era * 400 + yoe by omega]
    rw [show (era * 400 + yoe) / 400 = era by omega]
    rw [show era * 400 + yoe - era * 400 = yoe by ring]
    rw [if_neg (show ¬ 2 < m by omega)]
    subst hm
    rw [show mp - 9 + 9 = mp by ring]
    omega

/-- Arithmetic characterization of the Gregorian leap-year test. -/
theorem isLeapYear_spec (y : Int) :
    isLeapYear y = true ↔ ((y % 4 = 0 ∧ y % 100 ≠ 0) ∨ y % 400 = 0) := by
  simp [isLeapYear]
set_option maxHeartbeats 4000000 in
/-- Validity of the civil date produced by `civilFromDays`: month in 1–12 and
day in 1 to the month's length (accounting for leap years in February),
stated over the unfolded components of `civilFromDays`. -/
theorem civil_aux_valid (z era doe yoe doy mp d m y : Int)
    (hera : era = (z + 719468) / 146097)
    (hdoe : doe = z + 719468 - era * 146097)
    (hyoe : yoe = yoeOfDoe doe)
    (hdoy : doy = doe - yearStartOfEra yoe)
    (hmp : mp = mpOfDoy doy)
    (hd : d = doy - monthStartDoy mp + 1)
    (hm : m = if mp < 10 then mp + 3 else mp - 9)
    (hy : y = if m ≤ 2 then era * 400 + yoe + 1 else era * 400 + yoe) :
    1 ≤ m ∧ m ≤ 12 ∧ 1 ≤ d ∧ d ≤ daysInMonth y m := by
  have ys := yoeOfDoe_spec doe (by omega) (by omega)
  rw [← hyoe] at ys
  have ms := mpOfDoy_spec doy (by omega) (by omega)
  rw [← hmp] at ms
  unfold yearStartOfEra at ys hdoy
  unfold monthStartDoy at ms hd
  by_cases hc : mp < 10
  · rw [if_pos hc] at hm
    have hm2 : ¬ m ≤ 2 := by omega
    rw [if_neg hm2] at hy
    refine ⟨by omega, by omega, by omega, ?_⟩
    simp only [daysInMonth]
    rw [if_neg (show ¬ m = 2 by omega)]
    split_ifs with h30
    · omega
    · omega
  · rw [if_neg hc] at hm
    have hm2 : m ≤ 2 := by omega
    rw [if_pos hm2] at hy
    refine ⟨by omega, by omega, by omega, ?_⟩
    simp only [daysInMonth]
    by_cases hfeb : m = 2
    · rw [if_pos hfeb]
      have t4 : y % 4 = (yoe + 1) % 4 := by omega
      have t100 : y % 100 = (yoe + 1) % 100 := by omega
      have t400 : y % 400 = (yoe + 1) % 400 := by omega
      have q4 : ((yoe + 1) % 4 = 0 ∧ (yoe + 1) / 4 = yoe / 4 + 1) ∨
          ((yoe + 1) % 4 ≠ 0 ∧ (yoe + 1) / 4 = yoe / 4) := by omega
      have q100 : ((yoe + 1) % 100 = 0 ∧ (yoe + 1) / 100 = yoe / 100 + 1) ∨
          ((yoe + 1) % 100 ≠ 0 ∧ (yoe + 1) / 100 = yoe / 100) := by omega
      have q400 : ((yoe + 1) % 400 = 0 ∧ (yoe + 1) / 400 = yoe / 400 + 1) ∨
          ((yoe + 1) % 400 ≠ 0 ∧ (yoe + 1) / 400 = yoe / 400) := by omega
      by_cases hL : (y % 4 = 0 ∧ y % 100 ≠ 0) ∨ y % 400 = 0
      · rw [if_pos (isLeapYear_spec y |>.mpr hL)]
        rw [t4, t100, t400] at hL
        rcases q4 with ⟨c4, q4⟩ | ⟨c4, q4⟩ <;> rcases q100 with ⟨c100, q100⟩ | ⟨c100, q100⟩ <;>
          rcases q400 with ⟨c400, q400⟩ | ⟨c400, q400⟩ <;> omega
      · rw [if_neg (fun hb => hL ((isLeapYear_spec y).mp hb))]
        rw [t4, t100, t400] at hL
        rcases q4 with ⟨c4, q4⟩ | ⟨c4, q4⟩ <;> rcases q100 with ⟨c100, q100⟩ | ⟨c100, q100⟩ <;>
          rcases q400 with ⟨c400, q400⟩ | ⟨c400, q400⟩ <;> omega
    · rw [if_neg hfeb]
      rw [if_neg (show ¬ (m = 4 ∨ m = 6 ∨ m = 9 ∨ m = 11) by omega)]
      omega

/-- The civil date produced by `civilFromDays` is a valid calendar date and
maps back to the original day number under `daysFromCivil`. -/
theorem civilFromDays_spec (z : Int) :
    1 ≤ (civilFromDays z).2.1 ∧ (civilFromDays z).2.1 ≤ 12 ∧
    1 ≤ (civilFromDays z).2.2 ∧
    (civilFromDays z).2.2 ≤ daysInMonth (civilFromDays z).1 (civilFromDays z).2.1 ∧
    daysFromCivil (civilFromDays z).1 (civilFromDays z).2.1 (civilFromDays z).2.2 = z := by
  have hv := civil_aux_valid z ((z + 719468) / 146097)
    (z + 719468 - (z + 719468) / 146097 * 146097) _ _ _ _ _ _
    rfl rfl rfl rfl rfl rfl rfl rfl
  have hi := civil_aux_inv z ((z + 719468) / 146097)
    (z + 719468 - (z + 719468) / 146097 * 146097) _ _ _ _ _ _
    rfl rfl rfl rfl rfl rfl rfl rfl
  exact ⟨hv.1, hv.2.1, hv.2.2.1, hv.2.2.2, hi⟩

/-- The year-of-era extraction returns the unique March-based year whose span
contains the given day of era. -/
theorem yoeOfDoe_unique (doe yoe : Int) (h1 : 0 ≤ yoe) (h2 : yoe ≤ 399)
    (h3 : yearStartOfEra yoe ≤ doe)
    (h4 : doe < yearStartOfEra (yoe + 1) ∨ (yoe = 399 ∧ doe ≤ 146096)) :
    yoeOfDoe doe = yoe := by
  simp only [yoeOfDoe]
  have hub : yoe ≤ doe / 365 := by
    unfold yearStartOfEra at h3
    omega
  have hlb : doe / 365 ≤ yoe + 1 := by
    unfold yearStartOfEra at h4
    omega
  rcases (by omega : doe / 365 = yoe ∨ doe / 365 = yoe + 1) with he | he
  · rw [if_neg]
    · omega
    · rw [he]
      unfold yearStartOfEra at h3 ⊢
      omega
  · rw [if_pos]
    · omega
    · rw [he]
      unfold yearStartOfEra at h4 ⊢
      omega
/-- The month extraction returns the unique March-based month whose span
contains the given day of year. -/
theorem mpOfDoy_unique (doy mp : Int) (h1 : 0 ≤ mp) (h2 : mp ≤ 11)
    (h3 : monthStartDoy mp ≤ doy) (h4 : doy < monthStartDoy (mp + 1)) :
    mpOfDoy doy = mp := by
  simp only [mpOfDoy]
  have hub : mp ≤ doy / 30 := by
    unfold monthStartDoy at h3
    omega
  have hlb : doy / 30 ≤ mp + 1 := by
    unfold monthStartDoy at h4
    omega
  rcases (by omega : doy / 30 = mp ∨ doy / 30 = mp + 1) with he | he
  · rw [if_neg]
    · omega
    · rw [he]
      unfold monthStartDoy at h3 ⊢
      omega
  · rw [if_pos]
    · omega
    · rw [he]
      unfold monthStartDoy at h4 ⊢
      omega

set_option maxHeartbeats 4000000 in
/-- Round trip in the other direction: converting a valid civil date to a day
number and back recovers the civil date. -/
theorem civilFromDays_daysFromCivil (y m d : Int) (hm1 : 1 ≤ m) (hm2 : m ≤ 12)
    (hd1 : 1 ≤ d) (hd2 : d ≤ daysInMonth y m) :
    civilFromDays (daysFromCivil y m d) = (y, m, d) := by
  set y2 := if m ≤ 2 then y - 1 else y with hy2
  set era := y2 / 400 with hera
  set yoe := y2 - era * 400 with hyoe
  set mp := if 2 < m then m - 3 else m + 9 with hmp
  set doy := monthStartDoy mp + d - 1 with hdoy
  set doe := yearStartOfEra yoe + doy with hdoe
  have hz : daysFromCivil y m d = era * 146097 + doe - 719468 := rfl
  have hmpb : (2 < m ∧ mp = m - 3) ∨ (¬ 2 < m ∧ mp = m + 9) := by
    rw [hmp]
    split_ifs with h
    · exact Or.inl ⟨h, rfl⟩
    · exact Or.inr ⟨h, rfl⟩
  have hy2b : (m ≤ 2 ∧ y2 = y - 1) ∨ (¬ m ≤ 2 ∧ y2 = y) := by
    rw [hy2]
    split_ifs with h
    · exact Or.inl ⟨h, rfl⟩
    · exact Or.inr ⟨h, rfl⟩
  have hyoeb : 0 ≤ yoe ∧ yoe ≤ 399 := by omega
  have hdim : daysInMonth y m ≤ 31 ∧ (m = 2 → daysInMonth y m ≤ 29) := by
    unfold daysInMonth isLeapYear
    split_ifs <;> omega
  have hmS : monthStartDoy mp ≤ 337 ∧ 0 ≤ monthStartDoy mp ∧ (mp ≤ 10 → monthStartDoy mp ≤ 306) := by
    unfold monthStartDoy
    omega
  have hdoyb : 0 ≤ doy ∧ doy ≤ 365 := by omega
  have hdoeb : 0 ≤ doe ∧ doe ≤ 146096 := by
    unfold yearStartOfEra at hdoe
    omega
  rw [hz]
  simp only [civilFromDays]
  rw [show era * 146097 + doe - 719468 + 719468 = era * 146097 + doe by ring]
  rw [show (era * 146097 + doe) / 146097 = era by omega]
  rw [show era * 146097 + doe - era * 146097 = doe by ring]
  have h4' : doe < yearStartOfEra (yoe + 1) ∨ (yoe = 399 ∧ doe ≤ 146096) := by
    unfold yearStartOfEra at hdoe
    by_cases hfeb : m = 2
    · have hyy : y = era * 400 + yoe + 1 := by omega
      have hd29 : d ≤ 28 ∨ (d ≤ 29 ∧ ((y % 4 = 0 ∧ y % 100 ≠ 0) ∨ y % 400 = 0)) := by
        unfold daysInMonth at hd2
        rw [if_pos hfeb] at hd2
        by_cases hL : (y % 4 = 0 ∧ y % 100 ≠ 0) ∨ y % 400 = 0
        · rw [if_pos (isLeapYear_spec y |>.mpr hL)] at hd2
          exact Or.inr ⟨hd2, hL⟩
        · rw [if_neg (fun hb => hL ((isLeapYear_spec y).mp hb))] at hd2
          exact Or.inl hd2
      have t4 : y % 4 = (yoe + 1) % 4 := by omega
      have t100 : y % 100 = (yoe + 1) % 100 := by omega
      have t400 : y % 400 = (yoe + 1) % 400 := by omega
      have q4 : ((yoe + 1) % 4 = 0 ∧ (yoe + 1) / 4 = yoe / 4 + 1) ∨
          ((yoe + 1) % 4 ≠ 0 ∧ (yoe + 1) / 4 = yoe / 4) := by omega
      have q100 : ((yoe + 1) % 100 = 0 ∧ (yoe + 1) / 100 = yoe / 100 + 1) ∨
          ((yoe + 1) % 100 ≠ 0 ∧ (yoe + 1) / 100 = yoe / 100) := by omega
      rw [t4, t100, t400] at hd29
      have hmp11 : mp = 11 := by omega
      unfold yearStartOfEra
      unfold monthStartDoy at hdoy
      rcases q4 with ⟨c4, q4⟩ | ⟨c4, q4⟩ <;> rcases q100 with ⟨c100, q100⟩ | ⟨c100, q100⟩ <;>
        omega
    · have hmp10 : mp ≤ 10 := by omega
      have hdoy336 : doy ≤ 336 := by omega
      unfold yearStartOfEra
      omega
  rw [yoeOfDoe_unique doe yoe hyoeb.1 hyoeb.2 (by unfold yearStartOfEra at hdoe ⊢; omega) h4']
  rw [show doe - yearStartOfEra yoe = doy by omega]
  have h4m : doy < monthStartDoy (mp + 1) := by
    have h12 : mp = 0 ∨ mp = 1 ∨ mp = 2 ∨ mp = 3 ∨ mp = 4 ∨ mp = 5 ∨ mp = 6 ∨ mp = 7 ∨
        mp = 8 ∨ mp = 9 ∨ mp = 10 ∨ mp = 11 := by omega
    unfold monthStartDoy at hdoy ⊢
    unfold daysInMonth isLeapYear at hd2
    split_ifs at hd2 <;> omega
  rw [mpOfDoy_unique doy mp (by omega) (by omega) (by omega) h4m]
  rw [show doy - monthStartDoy mp + 1 = d by omega]
  have hmeq : (if mp < 10 then mp + 3 else mp - 9) = m := by
    split_ifs <;> omega
  rw [hmeq]
  by_cases hm2' : m ≤ 2
  · rw [if_pos hm2']
    exact Prod.ext (by omega) rfl
  · rw [if_neg hm2']
    exact Prod.ext (by omega) rfl

/-- Negation of a finite JavaScript number is integerized to the negation:
ToInteger truncates toward zero, which commutes with negation. -/
theorem jsToInt_neg (q : ℚ) : jsToInt (-q) = -(jsToInt q) := by
  unfold jsToInt
  rw [Rat.neg_num, Rat.neg_den, Int.neg_tdiv]
/-- Every month has at least 28 days. -/
theorem daysInMonth_ge (y m : Int) : 28 ≤ daysInMonth y m := by
  unfold daysInMonth isLeapYear
  split_ifs <;> omega
/-- A clipped shift of an in-range time value is undone by the opposite
shift. -/
theorem timeClip_shift_roundTrip (t t1 s : Int) (hr1 : -timeMax ≤ t) (hr2 : t ≤ timeMax)
    (h : timeClip (t + s) = some t1) : timeClip (t1 + -s) = some t := by
  unfold timeMax at hr1 hr2
  unfold timeClip timeMax at h ⊢
  split_ifs at h with h1
  · injection h with h2
    split_ifs with h3
    · congr 1
      omega
    · exfalso
      omega

set_option maxHeartbeats 4000000 in
/-- Round trip of calendar-month addition: if adding `k` months to an in-range
time value lands on a valid result without day-of-month clamping (the
day-of-month is preserved), then adding `-k` months to the result returns the
original time value exactly. -/
theorem addMonthsCore_roundTrip (t t1 k : Int)
    (hr1 : -timeMax ≤ t) (hr2 : t ≤ timeMax)
    (hfwd : addMonthsCore t k = some t1)
    (hnc : (civilFromDays (dayOfTime t1)).2.2 = (civilFromDays (dayOfTime t)).2.2) :
    addMonthsCore t1 (-k) = some t := by
  rcases hcz : civilFromDays (dayOfTime t) with ⟨y0, m0, d0⟩
  have spec := civilFromDays_spec (dayOfTime t)
  rw [hcz] at spec
  dsimp only at spec
  obtain ⟨s1, s2, s3, s4, s5⟩ := spec
  simp only [addMonthsCore] at hfwd
  rw [hcz] at hfwd
  dsimp only at hfwd
  simp only [addMonthsCore]
  set y2 := (y0 * 12 + (m0 - 1) + k) / 12 with hy2
  set m2 := (y0 * 12 + (m0 - 1) + k) % 12 + 1 with hm2
  set d2 := min d0 (daysInMonth y2 m2) with hd2
  have hm2b : 1 ≤ m2 ∧ m2 ≤ 12 := by omega
  have hd2b : 1 ≤ d2 ∧ d2 ≤ daysInMonth y2 m2 := by
    have := daysInMonth_ge y2 m2
    omega
  unfold timeClip at hfwd
  split_ifs at hfwd with hclip
  · injection hfwd with ht1
    have htod : 0 ≤ t % msPerDay ∧ t % msPerDay < msPerDay := by
      unfold msPerDay
      omega
    have hday1 : dayOfTime t1 = daysFromCivil y2 m2 d2 := by
      rw [← ht1]
      unfold dayOfTime
      unfold msPerDay at htod ⊢
      omega
    have hciv1 : civilFromDays (dayOfTime t1) = (y2, m2, d2) := by
      rw [hday1]
      exact civilFromDays_daysFromCivil y2 m2 d2 hm2b.1 hm2b.2 hd2b.1 hd2b.2
    rw [hciv1, hcz] at hnc
    dsimp only at hnc
    rw [hciv1]
    dsimp only
    rw [show (y2 * 12 + (m2 - 1) + -k) / 12 = y0 by omega]
    rw [show (y2 * 12 + (m2 - 1) + -k) % 12 + 1 = m0 by omega]
    rw [hnc]
    rw [min_eq_left s4]
    rw [s5]
    have ht1mod : t1 % msPerDay = t % msPerDay := by
      rw [← ht1]
      unfold msPerDay at htod ⊢
      omega
    rw [ht1mod]
    unfold timeMax at hr1 hr2
    unfold timeClip timeMax dayOfTime msPerDay
    split_ifs with hc2
    · congr 1
      omega
    · exfalso
      omega

/-- On a valid date and finite amount, `add` reduces to its unit dispatch. -/
theorem add_valid_finite (t : Int) (q : ℚ) (u : String) :
    add ⟨some t⟩ (JSNumber.finite q) u =
      if u = DATE_UNIT_TYPES.DAYS then .ok (addDays ⟨some t⟩ (.finite q))
      else if u = DATE_UNIT_TYPES.WEEKS then .ok (addWeeks ⟨some t⟩ (.finite q))
      else if u = DATE_UNIT_TYPES.MONTHS then .ok (addMonths ⟨some t⟩ (.finite q))
      else if u = DATE_UNIT_TYPES.YEARS then .ok (addYears ⟨some t⟩ (.finite q))
      else .ok (addDays ⟨some t⟩ (.finite q)) := rfl

/-- C1 counterexample: with a perfectly valid date, the amount `Infinity` is
not a finite number, yet `add` raises no error at all — it returns `ok` with
an Invalid Date inside.  This refutes "fails with `InvalidInput` if `amount`
is not a finite number": the validation only rejects NaN. -/
theorem add_accepts_infinite_amount :
    add ⟨some 0⟩ JSNumber.posInf DATE_UNIT_TYPES.DAYS = Except.ok ⟨none⟩ ∧
    JSNumber.isFinite JSNumber.posInf = false :=
  ⟨rfl, rfl⟩

/-- C1 (amended): `add(date, amount, unit)` fails exactly when the date is
invalid or the amount is NaN; in particular `add(invalidDate, 1)` and
`add(date, NaN)` fail, and for a valid date and non-NaN amount no error is
raised (an infinite amount is accepted and merely produces an Invalid Date
result). -/
theorem add_error_iff_invalid_date_or_nan_amount
    (date : JSDate) (amount : JSNumber) (ty : String) :
    (add date amount ty).isOk = false ↔ (date.isValid = false ∨ amount.isNaN = true) := by
  by_cases hv : date.isValid <;> by_cases hn : amount.isNaN <;>
    (simp [add, hv, hn, Except.isOk, Except.toBool]
     try split_ifs <;> simp [Except.isOk, Except.toBool])

/-- C2: for a well-ordered range (`from ≤ to`, as time values),
`isWithinRange` returns true exactly when the date lies strictly between the
bounds, and both boundaries themselves are rejected (exclusive on both
ends). -/
theorem isWithinRange_strictly_between_iff (d f t : Int) (h : f ≤ t) :
    (isWithinRange ⟨some d⟩ ⟨some f⟩ ⟨some t⟩ = .ok true ↔ f < d ∧ d < t) ∧
    isWithinRange ⟨some f⟩ ⟨some f⟩ ⟨some t⟩ = .ok false ∧
    isWithinRange ⟨some t⟩ ⟨some f⟩ ⟨some t⟩ = .ok false := by
  have ht : ¬ t < f := by omega
  refine ⟨?_, ?_, ?_⟩ <;> simp [isWithinRange, isAfter, isBefore, ht]

/-- Witness for C2 at the concrete range 0‥10: 5 is strictly inside, the
boundary 0 is not. -/
theorem isWithinRange_strictly_between_iff_witness :
    isWithinRange ⟨some 5⟩ ⟨some 0⟩ ⟨some 10⟩ = .ok true ∧
    isWithinRange ⟨some 0⟩ ⟨some 0⟩ ⟨some 10⟩ = .ok false := by
  obtain ⟨h1, h2, _⟩ := isWithinRange_strictly_between_iff 5 0 10 (by decide)
  exact ⟨h1.mpr (by decide), h2⟩

/-- C3: `isWithinRange` throws the `InvalidRange` message exactly when `from`
is chronologically after `to`, and that is its only failure mode (the call
result is non-`ok` exactly under the same condition). -/
theorem isWithinRange_error_iff_from_after_to (d f t : Int) :
    (isWithinRange ⟨some d⟩ ⟨some f⟩ ⟨some t⟩ =
        .error "Invalid range: from date must be before to date" ↔ t < f) ∧
    ((isWithinRange ⟨some d⟩ ⟨some f⟩ ⟨some t⟩).isOk = false ↔ t < f) := by
  by_cases hlt : t < f <;>
    simp [isWithinRange, isAfter, hlt, Except.isOk, Except.toBool]

/-- C4 counterexample: the JavaScript `Date` constructor treats a year
between 0 and 99 as `1900 + year`, so `getHolidays(50)` yields the holidays
of 1950, not of year 50; the claimed list for year 50 is not produced. -/
theorem getHolidays_year_50_cex :
    getHolidays 50 ≠ [civilMidnight 50 1 1, civilMidnight 50 12 25, civilMidnight 50 12 31] ∧
    getHolidays 50 = [civilMidnight 1950 1 1, civilMidnight 1950 12 25, civilMidnight 1950 12 31] := by
  constructor
  · decide
  · decide

/-- C4 (amended): for every year outside the two-digit range 0–99 (which the
`Date` constructor remaps to 1900–1999), `getHolidays` produces exactly the
three-element list [Jan 1, Dec 25, Dec 31] of that year, in that order; it
has no failure path. -/
theorem getHolidays_yields_jan1_dec25_dec31 (y : Int) (h : y < 0 ∨ 99 < y) :
    getHolidays y = [civilMidnight y 1 1, civilMidnight y 12 25, civilMidnight y 12 31] := by
  have hyr : ¬ (0 ≤ y ∧ y ≤ 99) := by omega
  have h2 : daysFromCivil y 12 1 + 24 = daysFromCivil y 12 25 := by
    unfold daysFromCivil
    norm_num
    omega
  have h3 : daysFromCivil y 12 1 + 30 = daysFromCivil y 12 31 := by
    unfold daysFromCivil
    norm_num
    omega
  unfold getHolidays jsNewDate civilMidnight
  norm_num [hyr]
  rw [h2, h3]
  exact ⟨rfl, rfl⟩

/-- Witness for C4 at year 2026: the scenario from the spec. -/
theorem getHolidays_yields_jan1_dec25_dec31_witness :
    getHolidays 2026 = [civilMidnight 2026 1 1, civilMidnight 2026 12 25, civilMidnight 2026 12 31] :=
  getHolidays_yields_jan1_dec25_dec31 2026 (Or.inr (by decide))

/-- C5: for every valid date, `isHoliday` is true exactly when some entry of
the Holiday Set of the date's calendar year falls on the same calendar day
(`isSameDay`); concretely, 2026-12-25 at 10:00 is a holiday and 2026-06-15 is
not. -/
theorem isHoliday_iff_sameDay_some_holiday (t : Int) :
    (isHoliday ⟨some t⟩ = true ↔
      ∃ h ∈ getHolidays (yearOfTime t), isSameDay ⟨some t⟩ h = true) ∧
    isHoliday ⟨some (daysFromCivil 2026 12 25 * msPerDay + 10 * msPerHour)⟩ = true ∧
    isHoliday ⟨some (daysFromCivil 2026 6 15 * msPerDay)⟩ = false := by
  refine ⟨?_, by decide, by decide⟩
  simp [isHoliday, List.any_eq_true]

/-- C6: a unit tag that is none of DAYS/WEEKS/MONTHS/YEARS makes `add` behave
exactly like day-granularity addition, with no error for a valid date and
finite amount; and the omitted unit defaults to DAYS. -/
theorem add_unknown_unit_falls_back_to_days
    (date : JSDate) (amount : JSNumber) (u : String)
    (hv : date.isValid = true) (hf : amount.isFinite = true)
    (h1 : u ≠ DATE_UNIT_TYPES.DAYS) (h2 : u ≠ DATE_UNIT_TYPES.WEEKS)
    (h3 : u ≠ DATE_UNIT_TYPES.MONTHS) (h4 : u ≠ DATE_UNIT_TYPES.YEARS) :
    add date amount u = add date amount DATE_UNIT_TYPES.DAYS ∧
    addDefaultUnit date amount = add date amount DATE_UNIT_TYPES.DAYS ∧
    (add date amount u).isOk = true := by
  have hn : amount.isNaN = false := by
    cases amount <;> simp_all [JSNumber.isNaN, JSNumber.isFinite]
  refine ⟨?_, rfl, ?_⟩ <;>
    simp [add, hv, hn, h1, h2, h3, h4, Except.isOk, Except.toBool]

/-- Witness for C6 with the unrecognized tag "fortnights" on a valid date and
the finite amount 1. -/
theorem add_unknown_unit_falls_back_to_days_witness :
    add ⟨some 0⟩ (JSNumber.finite 1) "fortnights" =
      add ⟨some 0⟩ (JSNumber.finite 1) DATE_UNIT_TYPES.DAYS :=
  (add_unknown_unit_falls_back_to_days ⟨some 0⟩ (JSNumber.finite 1) "fortnights"
    (by decide) (by decide) (by decide) (by decide) (by decide) (by decide)).1

/-- C10: a degenerate range whose two endpoints are the same value is
accepted without an `InvalidRange` error, and no date whatsoever lies within
it: the call always returns `ok false`, even for invalid inputs. -/
theorem isWithinRange_empty_range_false (date fromDate : JSDate) :
    isWithinRange date fromDate fromDate = .ok false := by
  obtain ⟨tf⟩ := fromDate
  obtain ⟨td⟩ := date
  cases tf <;> cases td <;>
    (simp [isWithinRange, isAfter, isBefore]
     try omega)

/-- C9: `isSameDay` holds reflexively on every valid date, and it is
insensitive to time-of-day: any two instants whose local days carry the same
civil calendar date compare equal under `isSameDay`, regardless of their
times. -/
theorem isSameDay_refl_time_insensitive :
    (∀ t : Int, isSameDay ⟨some t⟩ ⟨some t⟩ = true) ∧
    (∀ t1 t2 : Int, civilFromDays (dayOfTime t1) = civilFromDays (dayOfTime t2) →
      isSameDay ⟨some t1⟩ ⟨some t2⟩ = true) := by
  constructor
  · intro t
    simp [isSameDay, isSameDayFn]
  · intro t1 t2 h
    have h1 := (civilFromDays_spec (dayOfTime t1)).2.2.2.2
    have h2 := (civilFromDays_spec (dayOfTime t2)).2.2.2.2
    rw [h] at h1
    simp [isSameDay, isSameDayFn]
    omega

/-- Witness for C9: 08:00 and 23:00 of 2026-01-01 are the same day. -/
theorem isSameDay_refl_time_insensitive_witness :
    isSameDay ⟨some (daysFromCivil 2026 1 1 * msPerDay + 8 * msPerHour)⟩
      ⟨some (daysFromCivil 2026 1 1 * msPerDay + 23 * msPerHour)⟩ = true :=
  isSameDay_refl_time_insensitive.2 _ _ (by decide)

/-- C7 counterexample: the round trip is not unconditional.  Starting from
the epoch and adding 1e9 days (a finite amount) overflows the representable
time range: the first `add` succeeds but returns an Invalid Date, and the
second `add` then throws `InvalidInput` instead of returning to the original
calendar day. -/
theorem add_roundTrip_overflow_cex :
    add ⟨some 0⟩ (JSNumber.finite 1000000000) DATE_UNIT_TYPES.DAYS = .ok ⟨none⟩ ∧
    add ⟨none⟩ (JSNumber.finite (-1000000000)) DATE_UNIT_TYPES.DAYS =
      .error "Invalid date provided" := by
  exact ⟨rfl, rfl⟩

set_option maxHeartbeats 2000000 in
/-- C7 (amended): for a valid in-range date and a finite amount, if
`add(d, n, unit)` succeeds with a valid (in-range) result — and, for MONTHS
and YEARS, no day-of-month clamping occurred (the month-length edge cases the
claim sets aside) — then `add(result, -n, unit)` returns the original instant
exactly, hence in particular a date on the same calendar day as `d`.  This
holds for every unit tag, including unrecognized ones. -/
theorem add_roundTrip_inverse (t t1 : Int) (q : ℚ) (u : String)
    (hr1 : -timeMax ≤ t) (hr2 : t ≤ timeMax)
    (hfwd : add ⟨some t⟩ (JSNumber.finite q) u = .ok ⟨some t1⟩)
    (hnc : (u = DATE_UNIT_TYPES.MONTHS ∨ u = DATE_UNIT_TYPES.YEARS) →
      (civilFromDays (dayOfTime t1)).2.2 = (civilFromDays (dayOfTime t)).2.2) :
    add ⟨some t1⟩ (JSNumber.finite (-q)) u = .ok ⟨some t⟩ := by
  rw [add_valid_finite] at hfwd ⊢
  split_ifs at hfwd ⊢ with h1 h2 h3 h4
  · injection hfwd with hX
    have hX' : timeClip (t + jsToInt q * msPerDay) = some t1 := congrArg JSDate.time hX
    refine congrArg Except.ok (congrArg JSDate.mk ?_)
    rw [jsToInt_neg, neg_mul]
    exact timeClip_shift_roundTrip t t1 _ hr1 hr2 hX'
  · injection hfwd with hX
    have hX' : timeClip (t + jsToInt (7 * q) * msPerDay) = some t1 := congrArg JSDate.time hX
    refine congrArg Except.ok (congrArg JSDate.mk ?_)
    rw [show (7 : ℚ) * -q = -(7 * q) by ring, jsToInt_neg, neg_mul]
    exact timeClip_shift_roundTrip t t1 _ hr1 hr2 hX'
  · injection hfwd with hX
    have hX' : addMonthsCore t (jsToInt q) = some t1 := congrArg JSDate.time hX
    refine congrArg Except.ok (congrArg JSDate.mk ?_)
    rw [jsToInt_neg]
    exact addMonthsCore_roundTrip t t1 _ hr1 hr2 hX' (hnc (Or.inl h3))
  · injection hfwd with hX
    have hX' : addMonthsCore t (12 * jsToInt q) = some t1 := congrArg JSDate.time hX
    refine congrArg Except.ok (congrArg JSDate.mk ?_)
    rw [jsToInt_neg, mul_neg]
    exact addMonthsCore_roundTrip t t1 _ hr1 hr2 hX' (hnc (Or.inr h4))
  · injection hfwd with hX
    have hX' : timeClip (t + jsToInt q * msPerDay) = some t1 := congrArg JSDate.time hX
    refine congrArg Except.ok (congrArg JSDate.mk ?_)
    rw [jsToInt_neg, neg_mul]
    exact timeClip_shift_roundTrip t t1 _ hr1 hr2 hX'

/-- Witness for C7: 2026-01-15 12:00 plus one month is 2026-02-15 12:00, and
adding -1 month returns the original instant. -/
theorem add_roundTrip_inverse_witness :
    add ⟨some (daysFromCivil 2026 2 15 * msPerDay + 12 * msPerHour)⟩
      (JSNumber.finite (-1)) DATE_UNIT_TYPES.MONTHS =
      .ok ⟨some (daysFromCivil 2026 1 15 * msPerDay + 12 * msPerHour)⟩ :=
  add_roundTrip_inverse (daysFromCivil 2026 1 15 * msPerDay + 12 * msPerHour)
    (daysFromCivil 2026 2 15 * msPerDay + 12 * msPerHour) 1 DATE_UNIT_TYPES.MONTHS
    (by decide) (by decide) rfl (fun _ => by decide)

end DateUtils
